import Mathlib

/-!
Verification of the command-orchestration layer in
`packages/salesforcedx-vscode-core/src/commands/forceAuthWebLogin.ts`:
the auth-web-login command builders, the demo-mode executor's result
interpretation, the `AuthParamsGatherer` prompt flow, and the commandlet
composition.  External collaborators (the VS Code window API, the
localization service `nls.localize`, the JSON parser, the demo-mode
org-type check) are passed in as explicit parameters; prompts become
explicit `Option` inputs (`none` models a dismissed prompt, i.e. an
`undefined` result in TypeScript).
-/

/-- `AuthParams` from forceAuthWebLogin.ts: the parameter bundle produced by
the gatherer and consumed by the builders. -/
structure AuthParams where
  «alias» : String
  loginUrl : String
deriving Repr, DecidableEq

/-- Modelled from the spec: `Command` (from the salesforcedx-utils-vscode
package, which is not under src/) is a literal argument list plus metadata
(description, log name), with a fixed base command `sfdx`. -/
structure Command where
  command : String
  args : List String
  description : String
  logName : Option String
deriving Repr, DecidableEq

/-- Modelled from the spec: `Command.toCommand` renders the base command
followed by the space-joined argument list, as pinned by the repository's
tests (`sfdx force:auth:web:login --setalias ...`). -/
def Command.toCommand (c : Command) : String :=
  c.command ++ " " ++ String.intercalate " " c.args

/-- Modelled from the spec: `SfdxCommandBuilder` (salesforcedx-utils-vscode,
not under src/) accumulates a literal argument list plus metadata. -/
structure SfdxCommandBuilder where
  description : String
  args : List String
  logName : Option String
deriving Repr

def SfdxCommandBuilder.new : SfdxCommandBuilder :=
  { description := "", args := [], logName := none }

def SfdxCommandBuilder.withDescription (b : SfdxCommandBuilder) (d : String) :
    SfdxCommandBuilder :=
  { b with description := d }

def SfdxCommandBuilder.withArg (b : SfdxCommandBuilder) (a : String) :
    SfdxCommandBuilder :=
  { b with args := b.args ++ [a] }

def SfdxCommandBuilder.withFlag (b : SfdxCommandBuilder) (f v : String) :
    SfdxCommandBuilder :=
  { b with args := b.args ++ [f, v] }

/-- Modelled from the spec: `withJson` adds the JSON flag, which renders as
`--json --loglevel fatal` in the built command (pinned by the repository's
demo-mode builder test). -/
def SfdxCommandBuilder.withJson (b : SfdxCommandBuilder) : SfdxCommandBuilder :=
  { b with args := b.args ++ ["--json", "--loglevel", "fatal"] }

def SfdxCommandBuilder.withLogName (b : SfdxCommandBuilder) (n : String) :
    SfdxCommandBuilder :=
  { b with logName := some n }

def SfdxCommandBuilder.build (b : SfdxCommandBuilder) : Command :=
  { command := "sfdx", args := b.args, description := b.description,
    logName := b.logName }

/-- `ForceAuthWebLoginExecutor.build` from forceAuthWebLogin.ts, with the
localization service `localize` (external `nls.localize`) as a parameter. -/
def ForceAuthWebLoginExecutor.build (localize : String → String)
    (data : AuthParams) : Command :=
  (SfdxCommandBuilder.new
    |>.withDescription (localize "force_auth_web_login_authorize_org_text")
    |>.withArg "force:auth:web:login"
    |>.withFlag "--setalias" data.«alias»
    |>.withFlag "--instanceurl" data.loginUrl
    |>.withArg "--setdefaultusername"
    |>.withLogName "force_auth_web_login").build

/-- `ForceAuthWebLoginDemoModeExecutor.build` from forceAuthWebLogin.ts. -/
def ForceAuthWebLoginDemoModeExecutor.build (localize : String → String)
    (data : AuthParams) : Command :=
  (SfdxCommandBuilder.new
    |>.withDescription (localize "force_auth_web_login_authorize_org_text")
    |>.withArg "force:auth:web:login"
    |>.withFlag "--setalias" data.«alias»
    |>.withFlag "--instanceurl" data.loginUrl
    |>.withArg "--setdefaultusername"
    |>.withArg "--noprompt"
    |>.withJson
    |>.withLogName "force_auth_web_login_demo_mode").build

def DEFAULT_ALIAS : String := "vscodeOrg"
def PRODUCTION_URL : String := "https://login.salesforce.com"
def SANDBOX_URL : String := "https://test.salesforce.com"

/-- C1: For every AuthParams bundle, `ForceAuthWebLoginExecutor.build`
returns a Command whose argument list is exactly
`[force:auth:web:login, --setalias, alias, --instanceurl, loginUrl,
--setdefaultusername]`, rendering as
`sfdx force:auth:web:login --setalias <alias> --instanceurl <loginUrl>
--setdefaultusername`, whose description is the localized
`force_auth_web_login_authorize_org_text` message, and whose log name is
`force_auth_web_login`. -/
theorem forceAuthWebLoginExecutor_build_spec (localize : String → String)
    (a u : String) :
    (ForceAuthWebLoginExecutor.build localize ⟨a, u⟩).args =
      ["force:auth:web:login", "--setalias", a, "--instanceurl", u,
       "--setdefaultusername"] ∧
    (ForceAuthWebLoginExecutor.build localize ⟨a, u⟩).toCommand =
      "sfdx force:auth:web:login --setalias " ++ a ++ " --instanceurl " ++ u
        ++ " --setdefaultusername" ∧
    (ForceAuthWebLoginExecutor.build localize ⟨a, u⟩).description =
      localize "force_auth_web_login_authorize_org_text" ∧
    (ForceAuthWebLoginExecutor.build localize ⟨a, u⟩).logName =
      some "force_auth_web_login" := by
  refine ⟨rfl, ?_, rfl, rfl⟩
  apply String.ext
  simp only [ForceAuthWebLoginExecutor.build, Command.toCommand,
    SfdxCommandBuilder.build, SfdxCommandBuilder.new,
    SfdxCommandBuilder.withDescription, SfdxCommandBuilder.withArg,
    SfdxCommandBuilder.withFlag, SfdxCommandBuilder.withLogName,
    String.intercalate, String.intercalate.go, String.data_append,
    List.append_assoc, List.nil_append, List.cons_append,
    List.singleton_append]

/-- C2: For every AuthParams bundle, `ForceAuthWebLoginDemoModeExecutor.build`
returns a Command with the same argument list as the non-demo builder
followed by `--noprompt` and the JSON flag, rendering as
`sfdx force:auth:web:login --setalias <alias> --instanceurl <loginUrl>
--setdefaultusername --noprompt --json --loglevel fatal`, with the same
localized description and log name `force_auth_web_login_demo_mode`. -/
theorem forceAuthWebLoginDemoModeExecutor_build_spec
    (localize : String → String) (a u : String) :
    (ForceAuthWebLoginDemoModeExecutor.build localize ⟨a, u⟩).args =
      (ForceAuthWebLoginExecutor.build localize ⟨a, u⟩).args ++
        ["--noprompt", "--json", "--loglevel", "fatal"] ∧
    (ForceAuthWebLoginDemoModeExecutor.build localize ⟨a, u⟩).toCommand =
      "sfdx force:auth:web:login --setalias " ++ a ++ " --instanceurl " ++ u
        ++ " --setdefaultusername --noprompt --json --loglevel fatal" ∧
    (ForceAuthWebLoginDemoModeExecutor.build localize ⟨a, u⟩).description =
      (ForceAuthWebLoginExecutor.build localize ⟨a, u⟩).description ∧
    (ForceAuthWebLoginDemoModeExecutor.build localize ⟨a, u⟩).logName =
      some "force_auth_web_login_demo_mode" := by
  refine ⟨rfl, ?_, rfl, rfl⟩
  apply String.ext
  simp only [ForceAuthWebLoginDemoModeExecutor.build, Command.toCommand,
    SfdxCommandBuilder.build, SfdxCommandBuilder.new,
    SfdxCommandBuilder.withDescription, SfdxCommandBuilder.withArg,
    SfdxCommandBuilder.withFlag, SfdxCommandBuilder.withJson,
    SfdxCommandBuilder.withLogName, String.intercalate,
    String.intercalate.go, String.data_append, List.append_assoc,
    List.nil_append, List.cons_append, List.singleton_append]

/-- `OrgTypeItem` from forceAuthWebLogin.ts: a quick-pick item whose label
and detail are localized messages. -/
structure OrgTypeItem where
  label : String
  detail : String
deriving Repr, DecidableEq

/-- The `OrgTypeItem` constructor: both fields go through `nls.localize`. -/
def OrgTypeItem.ofKeys (localize : String → String) (localizeLabel localizeDetail : String) :
    OrgTypeItem :=
  { label := localize localizeLabel, detail := localize localizeDetail }

/-- The `orgTypes` record owned by `AuthParamsGatherer`: project, production,
sandbox and custom items. -/
structure OrgTypes where
  project : OrgTypeItem
  production : OrgTypeItem
  sandbox : OrgTypeItem
  custom : OrgTypeItem
deriving Repr, DecidableEq

/-- The initial `orgTypes` of a freshly constructed `AuthParamsGatherer`. -/
def AuthParamsGatherer.initOrgTypes (localize : String → String) : OrgTypes :=
  { project := OrgTypeItem.ofKeys localize "auth_project_label" "auth_project_detail"
    production := OrgTypeItem.ofKeys localize "auth_prod_label" "auth_prod_detail"
    sandbox := OrgTypeItem.ofKeys localize "auth_sandbox_label" "auth_sandbox_detail"
    custom := OrgTypeItem.ofKeys localize "auth_custom_label" "auth_custom_detail" }

/-- The workspace environment `getProjectUrl` reads: the workspace root path
(`none` or the empty string are both falsy in the TypeScript test
`if (workspace.rootPath)`), whether sfdx-project.json exists there, and the
`sfdcLoginUrl` field of its parsed contents (`none` for absent). -/
structure WorkspaceEnv where
  rootPath : Option String
  sfdxProjectFileExists : Bool
  sfdcLoginUrl : Option String

/-- `AuthParamsGatherer.getProjectUrl` from forceAuthWebLogin.ts: returns the
project config's `sfdcLoginUrl` when a workspace root with an
sfdx-project.json file is present, and `undefined` (here `none`)
otherwise. -/
def AuthParamsGatherer.getProjectUrl (env : WorkspaceEnv) : Option String :=
  if env.rootPath.getD "" = "" then none
  else if env.sfdxProjectFileExists then env.sfdcLoginUrl
  else none

/-- `AuthParamsGatherer.getQuickPickItems` from forceAuthWebLogin.ts: lists
production, sandbox and custom; when the project URL is truthy it rewrites
the project item's detail to include the URL and puts the project item
first.  Returns the item list together with the gatherer's `orgTypes` after
the mutation. -/
def AuthParamsGatherer.getQuickPickItems (localize : String → String)
    (env : WorkspaceEnv) (st : OrgTypes) : List OrgTypeItem × OrgTypes :=
  let projectUrl := AuthParamsGatherer.getProjectUrl env
  let items := [st.production, st.sandbox, st.custom]
  if projectUrl.getD "" = "" then (items, st)
  else
    let project :=
      { st.project with
        detail := localize "auth_project_detail" ++ " (" ++ projectUrl.getD "" ++ ")" }
    (project :: items, { st with project := project })

/-- One unanchored matching step of the regular expression
`https?:\/\/(.*)`: does the pattern match starting at the head of `t`? -/
def httpSchemeAt (t : List Char) : Bool :=
  "http://".data.isPrefixOf t || "https://".data.isPrefixOf t

/-- Unanchored regex search: does `p` hold at some starting position? -/
def anySuffix (p : List Char → Bool) : List Char → Bool
  | [] => p []
  | c :: cs => p (c :: cs) || anySuffix p cs

/-- `AuthParamsGatherer.validateUrl` from forceAuthWebLogin.ts: `null`
(here `none`) when the unanchored regex `https?:\/\/(.*)` matches the url,
and the localized `auth_invalid_url` message otherwise. -/
def AuthParamsGatherer.validateUrl (localize : String → String)
    (url : String) : Option String :=
  if anySuffix httpSchemeAt url.data then none
  else some (localize "auth_invalid_url")

/-- The result type of `gather`: a `CancelResponse` or a
`ContinueResponse` carrying an `AuthParams`. -/
inductive GatherResponse where
  | cancel : GatherResponse
  | cont : AuthParams → GatherResponse
deriving Repr, DecidableEq

/-- `AuthParamsGatherer.gather` from forceAuthWebLogin.ts.  The interactive
prompts become explicit inputs: `selection` is the label of the quick-pick
choice (`none` if dismissed), `customUrlInput` the custom-URL input box
result, `aliasInput` the alias input box result.  Returns the response
together with the gatherer's `orgTypes` after the call (the quick-pick
construction may mutate the project item's detail). -/
def AuthParamsGatherer.gather (localize : String → String) (env : WorkspaceEnv)
    (st : OrgTypes) (selection : Option String)
    (customUrlInput : Option String) (aliasInput : Option String) :
    GatherResponse × OrgTypes :=
  let st' := (AuthParamsGatherer.getQuickPickItems localize env st).2
  match selection with
  | none => (GatherResponse.cancel, st')
  | some orgType =>
    let finish : Option String → GatherResponse := fun loginUrl =>
      match aliasInput with
      | none => GatherResponse.cancel
      | some a =>
        GatherResponse.cont
          { «alias» := if a = "" then DEFAULT_ALIAS else a
            loginUrl :=
              if loginUrl.getD "" = "" then PRODUCTION_URL else loginUrl.getD "" }
    if orgType = st'.custom.label then
      match customUrlInput with
      | none => (GatherResponse.cancel, st')
      | some u => (finish (some u), st')
    else if orgType = st'.project.label then
      (finish (AuthParamsGatherer.getProjectUrl env), st')
    else
      (finish (some (if orgType = "Sandbox" then SANDBOX_URL else PRODUCTION_URL)), st')

/-- The observable outcome of `ForceAuthDemoModeExecutor.execute` after the
CLI result is awaited: the log-out-of-production prompt was invoked, the
successful-execution notification was shown for the command string, or the
returned promise was rejected with an error. -/
inductive ExecOutcome where
  | promptedLogOut : ExecOutcome
  | showedSuccess : String → ExecOutcome
  | rejected : String → ExecOutcome
deriving Repr, DecidableEq

/-- The result-interpretation tail of `ForceAuthDemoModeExecutor.execute`
from forceAuthWebLogin.ts (the try/catch around `getCmdResult`):
`cmdResult` is the awaited CLI result (`Except.error` when awaiting it
throws), `parseJson` is the external `JSON.parse` (`Except.error` when it
throws a parse error), and `isProdOrg` is the demo-mode org-type check on
the parsed value.  `cmdStr` is `execution.command.toString()`. -/
def ForceAuthDemoModeExecutor.executeOutcome {J : Type}
    (parseJson : String → Except String J) (isProdOrg : J → Bool)
    (cmdResult : Except String String) (cmdStr : String) : ExecOutcome :=
  match cmdResult with
  | Except.error e => ExecOutcome.rejected e
  | Except.ok s =>
    match parseJson s with
    | Except.error e => ExecOutcome.rejected e
    | Except.ok j =>
      if isProdOrg j then ExecOutcome.promptedLogOut
      else ExecOutcome.showedSuccess cmdStr

/-- The stages a commandlet run can pass through, in order. -/
inductive CommandletStage where
  | precheck : CommandletStage
  | gathering : CommandletStage
  | execution : CommandletStage
deriving Repr, DecidableEq

/-- Modelled from the spec: `SfdxCommandlet.run` (defined in commands.ts,
which is not under src/) sequences workspace precondition check, then
parameter gathering, then command execution; a failed check stops before
gathering and a CANCEL response stops before execution.  The value is the
ordered trace of stages that ran. -/
def SfdxCommandlet.run (checkPassed : Bool) (g : GatherResponse) :
    List CommandletStage :=
  if checkPassed then
    match g with
    | GatherResponse.cancel => [CommandletStage.precheck, CommandletStage.gathering]
    | GatherResponse.cont _ =>
      [CommandletStage.precheck, CommandletStage.gathering, CommandletStage.execution]
  else [CommandletStage.precheck]

/-- The two executor classes `createExecutor` can instantiate. -/
inductive ExecutorKind where
  | webLogin : ExecutorKind
  | webLoginDemoMode : ExecutorKind
deriving Repr, DecidableEq

/-- `createExecutor` from forceAuthWebLogin.ts, with the external
`isDemoMode()` check passed in as a Boolean. -/
def createExecutor (demoMode : Bool) : ExecutorKind :=
  if demoMode then ExecutorKind.webLoginDemoMode else ExecutorKind.webLogin

/-- The module-level mutable state of forceAuthWebLogin.ts: the singleton
`parameterGatherer`'s `orgTypes` (the singleton `workspaceChecker` holds no
state). -/
structure ModuleState where
  parameterGatherer : OrgTypes
deriving Repr, DecidableEq

/-- Modelled from the spec: `forceAuthWebLogin` from forceAuthWebLogin.ts
composed with `SfdxCommandlet.run` (commands.ts, not under src/): it runs
the commandlet over the module-level singleton checker and gatherer and a
fresh executor from `createExecutor` (`demoMode` is the external
`isDemoMode()` check).  Returns the module state after the call, the
executor the commandlet was built with, and the trace of stages that
ran. -/
def forceAuthWebLoginRun (localize : String → String) (env : WorkspaceEnv)
    (demoMode checkPassed : Bool) (ms : ModuleState)
    (selection : Option String) (customUrlInput : Option String)
    (aliasInput : Option String) :
    ModuleState × ExecutorKind × List CommandletStage :=
  if checkPassed then
    let r := AuthParamsGatherer.gather localize env ms.parameterGatherer
      selection customUrlInput aliasInput
    ({ parameterGatherer := r.2 }, createExecutor demoMode,
      SfdxCommandlet.run true r.1)
  else (ms, createExecutor demoMode,
    SfdxCommandlet.run false GatherResponse.cancel)

lemma isPrefixOf_iff_exists (l t : List Char) :
    l.isPrefixOf t = true ↔ ∃ r, t = l ++ r := by
  induction l generalizing t with
  | nil => simp [List.isPrefixOf]
  | cons a as ih =>
    cases t with
    | nil => simp [List.isPrefixOf]
    | cons b bs =>
      simp only [List.isPrefixOf, Bool.and_eq_true, beq_iff_eq, ih,
        List.cons_append, List.cons.injEq]
      constructor
      · rintro ⟨rfl, r, rfl⟩
        exact ⟨r, rfl, rfl⟩
      · rintro ⟨r, rfl, rfl⟩
        exact ⟨rfl, r, rfl⟩

lemma anySuffix_iff (p : List Char → Bool) (l : List Char) :
    anySuffix p l = true ↔ ∃ l₁ l₂, l = l₁ ++ l₂ ∧ p l₂ = true := by
  induction l with
  | nil =>
    simp only [anySuffix]
    constructor
    · intro h
      exact ⟨[], [], rfl, h⟩
    · rintro ⟨l₁, l₂, h, hp⟩
      rw [eq_comm, List.append_eq_nil] at h
      rw [← h.2]
      exact hp
  | cons c cs ih =>
    simp only [anySuffix, Bool.or_eq_true, ih]
    constructor
    · rintro (h | ⟨l₁, l₂, rfl, hp⟩)
      · exact ⟨[], c :: cs, rfl, h⟩
      · exact ⟨c :: l₁, l₂, rfl, hp⟩
    · rintro ⟨l₁, l₂, h, hp⟩
      cases l₁ with
      | nil =>
        left
        simp only [List.nil_append] at h
        rw [h]
        exact hp
      | cons d ds =>
        right
        rw [List.cons_append, List.cons.injEq] at h
        exact ⟨ds, l₂, h.2, hp⟩

lemma anySuffix_httpSchemeAt_iff (s : String) :
    anySuffix httpSchemeAt s.data = true ↔
      (∃ l r, s.data = l ++ "http://".data ++ r) ∨
      (∃ l r, s.data = l ++ "https://".data ++ r) := by
  rw [anySuffix_iff]
  constructor
  · rintro ⟨l₁, l₂, h, hp⟩
    rcases Bool.or_eq_true _ _ |>.mp hp with hh | hh
    · rcases (isPrefixOf_iff_exists _ _).mp hh with ⟨r, rfl⟩
      exact Or.inl ⟨l₁, r, by rw [h, List.append_assoc]⟩
    · rcases (isPrefixOf_iff_exists _ _).mp hh with ⟨r, rfl⟩
      exact Or.inr ⟨l₁, r, by rw [h, List.append_assoc]⟩
  · rintro (⟨l, r, h⟩ | ⟨l, r, h⟩)
    · refine ⟨l, "http://".data ++ r, by rw [h, List.append_assoc], ?_⟩
      exact Bool.or_eq_true _ _ |>.mpr (Or.inl ((isPrefixOf_iff_exists _ _).mpr ⟨r, rfl⟩))
    · refine ⟨l, "https://".data ++ r, by rw [h, List.append_assoc], ?_⟩
      exact Bool.or_eq_true _ _ |>.mpr (Or.inr ((isPrefixOf_iff_exists _ _).mpr ⟨r, rfl⟩))

/-- C10: `AuthParamsGatherer.validateUrl` returns `null` (accepts) exactly
for the strings containing `http://` or `https://` anywhere as a substring
(the regular expression is unanchored, so arbitrary text may precede the
scheme), and returns the localized `auth_invalid_url` message for every
other string. -/
theorem authParamsGatherer_validateUrl_spec (localize : String → String)
    (u : String) :
    (AuthParamsGatherer.validateUrl localize u = none ↔
      (∃ l r, u.data = l ++ "http://".data ++ r) ∨
      (∃ l r, u.data = l ++ "https://".data ++ r)) ∧
    (AuthParamsGatherer.validateUrl localize u = none ∨
      AuthParamsGatherer.validateUrl localize u =
        some (localize "auth_invalid_url")) := by
  unfold AuthParamsGatherer.validateUrl
  rcases h : anySuffix httpSchemeAt u.data with _ | _
  · rw [← anySuffix_httpSchemeAt_iff]
    simp [h]
  · rw [← anySuffix_httpSchemeAt_iff]
    simp [h]

lemma getQuickPickItems_frame (localize : String → String)
    (env : WorkspaceEnv) (st : OrgTypes) :
    (AuthParamsGatherer.getQuickPickItems localize env st).2.production = st.production ∧
    (AuthParamsGatherer.getQuickPickItems localize env st).2.sandbox = st.sandbox ∧
    (AuthParamsGatherer.getQuickPickItems localize env st).2.custom = st.custom ∧
    (AuthParamsGatherer.getQuickPickItems localize env st).2.project.label = st.project.label := by
  unfold AuthParamsGatherer.getQuickPickItems
  dsimp only
  split
  · exact ⟨rfl, rfl, rfl, rfl⟩
  · exact ⟨rfl, rfl, rfl, rfl⟩

lemma gather_snd_eq (localize : String → String) (env : WorkspaceEnv)
    (st : OrgTypes) (sel cu al : Option String) :
    (AuthParamsGatherer.gather localize env st sel cu al).2 =
      (AuthParamsGatherer.getQuickPickItems localize env st).2 := by
  unfold AuthParamsGatherer.gather
  cases sel with
  | none => rfl
  | some orgType =>
    by_cases h1 : orgType = (AuthParamsGatherer.getQuickPickItems localize env st).2.custom.label <;>
    by_cases h2 : orgType = (AuthParamsGatherer.getQuickPickItems localize env st).2.project.label <;>
    cases cu <;> simp [h1, h2] <;> (try (split <;> rfl))

lemma validateUrl_production (localize : String → String) :
    AuthParamsGatherer.validateUrl localize PRODUCTION_URL = none := by
  have h : anySuffix httpSchemeAt PRODUCTION_URL.data = true := by decide
  simp [AuthParamsGatherer.validateUrl, h]

lemma validateUrl_or_default (localize : String → String) (v : String)
    (hv : AuthParamsGatherer.validateUrl localize v = none) :
    AuthParamsGatherer.validateUrl localize
      (if v = "" then PRODUCTION_URL else v) = none := by
  by_cases h : v = ""
  · simp only [h, if_true, if_pos]
    exact validateUrl_production localize
  · simpa [h] using hv

/-- C3: `AuthParamsGatherer.gather` always returns either a CancelResponse
or a ContinueResponse: assuming the custom-URL input box only yields values
passing its `validateInput` check (`validateUrl`), the result is CANCEL
exactly when the org-type quick pick is dismissed, the custom-URL input box
is dismissed, or the (reached) alias input box is dismissed; in every other
case it is CONTINUE, and a loginUrl obtained from the custom-URL prompt
satisfies `validateUrl`. -/
theorem authParamsGatherer_gather_cancel_or_validated
    (localize : String → String) (env : WorkspaceEnv) (st : OrgTypes)
    (sel cu al : Option String)
    (hval : ∀ v, cu = some v →
      AuthParamsGatherer.validateUrl localize v = none) :
    ((AuthParamsGatherer.gather localize env st sel cu al).1 =
        GatherResponse.cancel ↔
      sel = none ∨
      (sel = some st.custom.label ∧ cu = none) ∨
      (sel ≠ none ∧ (sel = some st.custom.label → cu ≠ none) ∧ al = none)) ∧
    (∀ p, (AuthParamsGatherer.gather localize env st sel cu al).1 =
        GatherResponse.cont p →
      sel = some st.custom.label →
      AuthParamsGatherer.validateUrl localize p.loginUrl = none) := by
  obtain ⟨hprod, hsand, hcust, hproj⟩ := getQuickPickItems_frame localize env st
  unfold AuthParamsGatherer.gather
  cases sel with
  | none => simp
  | some orgType =>
    by_cases h1 : orgType = st.custom.label
    · cases cu with
      | none => simp [h1, hcust]
      | some v =>
        have hv := hval v rfl
        cases al with
        | none => simp [h1, hcust]
        | some a =>
          constructor
          · simp [h1, hcust]
          · intro p hp _
            simp only [h1, hcust, if_pos] at hp
            cases hp
            exact validateUrl_or_default localize v hv
    · by_cases h2 : orgType = st.project.label
      · subst h2
        cases al <;> simp [h1, hcust, hproj]
      · cases al <;> simp [h1, h2, hcust, hproj]

theorem authParamsGatherer_gather_cancel_or_validated_witness :
    (AuthParamsGatherer.gather (fun k => k) ⟨none, false, none⟩
        (AuthParamsGatherer.initOrgTypes (fun k => k)) none
        (some "https://x") none).1 = GatherResponse.cancel :=
  (authParamsGatherer_gather_cancel_or_validated (fun k => k)
      ⟨none, false, none⟩ (AuthParamsGatherer.initOrgTypes (fun k => k)) none
      (some "https://x") none
      (fun v h => by injection h with h2; subst h2; decide)).1.mpr
    (Or.inl rfl)

/-- C4: `ForceAuthDemoModeExecutor.execute`, after awaiting the CLI result,
parses it as JSON and branches on the demo-mode org-type check: when
`isProdOrg` holds of the parsed result it invokes the log-out-of-production
prompt and does not show the success notification; otherwise it shows the
successful-execution notification — in both branches the outcome is
determined only by the parsed JSON result. -/
theorem forceAuthDemoModeExecutor_execute_branches {J : Type}
    (parseJson : String → Except String J) (isProdOrg : J → Bool)
    (s cmdStr : String) (j : J) (hparse : parseJson s = Except.ok j) :
    ForceAuthDemoModeExecutor.executeOutcome parseJson isProdOrg
        (Except.ok s) cmdStr =
      (if isProdOrg j then ExecOutcome.promptedLogOut
        else ExecOutcome.showedSuccess cmdStr) ∧
    (isProdOrg j = true →
      ForceAuthDemoModeExecutor.executeOutcome parseJson isProdOrg
          (Except.ok s) cmdStr = ExecOutcome.promptedLogOut ∧
      ForceAuthDemoModeExecutor.executeOutcome parseJson isProdOrg
          (Except.ok s) cmdStr ≠ ExecOutcome.showedSuccess cmdStr) ∧
    (isProdOrg j = false →
      ForceAuthDemoModeExecutor.executeOutcome parseJson isProdOrg
          (Except.ok s) cmdStr = ExecOutcome.showedSuccess cmdStr) := by
  unfold ForceAuthDemoModeExecutor.executeOutcome
  dsimp only
  rw [hparse]
  rcases h : isProdOrg j with _ | _ <;> simp [h]

theorem forceAuthDemoModeExecutor_execute_branches_witness :
    ForceAuthDemoModeExecutor.executeOutcome
        (fun _ => Except.ok true) (fun b => b) (Except.ok "r") "c" =
      ExecOutcome.promptedLogOut := by
  have h := forceAuthDemoModeExecutor_execute_branches
    (fun _ => Except.ok true) (fun b => b) "r" "c" true rfl
  exact (h.2.1 rfl).1

/-- C5: `ForceAuthDemoModeExecutor.execute` has no failure-handling policy
beyond rejection: every error raised while obtaining or interpreting the
command result (including a JSON parse failure) rejects the returned
promise with that error, with no retry, fallback, or success
notification. -/
theorem forceAuthDemoModeExecutor_execute_rejects {J : Type}
    (parseJson : String → Except String J) (isProdOrg : J → Bool)
    (cmdResult : Except String String) (cmdStr e : String)
    (h : cmdResult = Except.error e ∨
      ∃ s, cmdResult = Except.ok s ∧ parseJson s = Except.error e) :
    ForceAuthDemoModeExecutor.executeOutcome parseJson isProdOrg
        cmdResult cmdStr = ExecOutcome.rejected e ∧
    ∀ t, ForceAuthDemoModeExecutor.executeOutcome parseJson isProdOrg
        cmdResult cmdStr ≠ ExecOutcome.showedSuccess t := by
  rcases h with rfl | ⟨s, rfl, hp⟩
  · exact ⟨rfl, fun t => by simp [ForceAuthDemoModeExecutor.executeOutcome]⟩
  · constructor
    · simp [ForceAuthDemoModeExecutor.executeOutcome, hp]
    · intro t
      simp [ForceAuthDemoModeExecutor.executeOutcome, hp]

theorem forceAuthDemoModeExecutor_execute_rejects_witness :
    ForceAuthDemoModeExecutor.executeOutcome
        (fun _ => (Except.error "bad json" : Except String Unit))
        (fun _ => false) (Except.ok "not-json") "c" =
      ExecOutcome.rejected "bad json" :=
  (forceAuthDemoModeExecutor_execute_rejects
    (fun _ => (Except.error "bad json" : Except String Unit))
    (fun _ => false) (Except.ok "not-json") "c" "bad json"
    (Or.inr ⟨"not-json", rfl, rfl⟩)).1

/-- C6: the `forceAuthWebLogin` commandlet sequences workspace precondition
check, then parameter gathering, then command execution, in that order, and
the executor it is built with is the one chosen by `createExecutor`; the
execution stage runs exactly when the workspace check passed and the
gatherer returned a CONTINUE response. -/
theorem forceAuthWebLogin_commandlet_sequencing (localize : String → String)
    (env : WorkspaceEnv) (demoMode checkPassed : Bool) (ms : ModuleState)
    (sel cu al : Option String) :
    (forceAuthWebLoginRun localize env demoMode checkPassed ms sel cu al).2.1 =
      createExecutor demoMode ∧
    (CommandletStage.execution ∈
        (forceAuthWebLoginRun localize env demoMode checkPassed ms sel cu al).2.2 ↔
      checkPassed = true ∧ ∃ p,
        (AuthParamsGatherer.gather localize env ms.parameterGatherer
          sel cu al).1 = GatherResponse.cont p) ∧
    ((forceAuthWebLoginRun localize env demoMode checkPassed ms sel cu al).2.2 =
        [CommandletStage.precheck] ∨
      (forceAuthWebLoginRun localize env demoMode checkPassed ms sel cu al).2.2 =
        [CommandletStage.precheck, CommandletStage.gathering] ∨
      (forceAuthWebLoginRun localize env demoMode checkPassed ms sel cu al).2.2 =
        [CommandletStage.precheck, CommandletStage.gathering,
          CommandletStage.execution]) := by
  cases checkPassed with
  | false => simp [forceAuthWebLoginRun, SfdxCommandlet.run]
  | true =>
    rcases hg : (AuthParamsGatherer.gather localize env ms.parameterGatherer
        sel cu al).1 with _ | p <;>
      simp [forceAuthWebLoginRun, SfdxCommandlet.run, hg]

/-- C7: across invocations `forceAuthWebLogin` shares no mutable state
beyond the module-level singleton gatherer (the checker is stateless and a
fresh executor is created each call): a call leaves the singleton's
production, sandbox and custom items and the project item's label
untouched, and the only mutation any gatherer operation performs is
`getQuickPickItems` rewriting the project item's detail to include the
project URL. -/
theorem forceAuthWebLogin_singleton_frame (localize : String → String)
    (env : WorkspaceEnv) (demoMode checkPassed : Bool) (ms : ModuleState)
    (sel cu al : Option String) :
    ((forceAuthWebLoginRun localize env demoMode checkPassed ms sel cu
        al).1.parameterGatherer.production = ms.parameterGatherer.production ∧
      (forceAuthWebLoginRun localize env demoMode checkPassed ms sel cu
        al).1.parameterGatherer.sandbox = ms.parameterGatherer.sandbox ∧
      (forceAuthWebLoginRun localize env demoMode checkPassed ms sel cu
        al).1.parameterGatherer.custom = ms.parameterGatherer.custom ∧
      (forceAuthWebLoginRun localize env demoMode checkPassed ms sel cu
        al).1.parameterGatherer.project.label =
        ms.parameterGatherer.project.label) ∧
    (∀ st : OrgTypes,
      (AuthParamsGatherer.getQuickPickItems localize env st).2.production =
        st.production ∧
      (AuthParamsGatherer.getQuickPickItems localize env st).2.sandbox =
        st.sandbox ∧
      (AuthParamsGatherer.getQuickPickItems localize env st).2.custom =
        st.custom ∧
      (AuthParamsGatherer.getQuickPickItems localize env st).2.project.label =
        st.project.label ∧
      ((AuthParamsGatherer.getProjectUrl env).getD "" ≠ "" →
        (AuthParamsGatherer.getQuickPickItems localize env
            st).2.project.detail =
          localize "auth_project_detail" ++ " (" ++
            (AuthParamsGatherer.getProjectUrl env).getD "" ++ ")")) := by
  constructor
  · cases checkPassed with
    | false => simp [forceAuthWebLoginRun]
    | true =>
      have h2 := gather_snd_eq localize env ms.parameterGatherer sel cu al
      have h3 := getQuickPickItems_frame localize env ms.parameterGatherer
      simp only [forceAuthWebLoginRun, if_pos]
      rw [h2]
      exact ⟨h3.1, h3.2.1, h3.2.2.1, h3.2.2.2⟩
  · intro st
    obtain ⟨f1, f2, f3, f4⟩ := getQuickPickItems_frame localize env st
    refine ⟨f1, f2, f3, f4, ?_⟩
    intro hurl
    unfold AuthParamsGatherer.getQuickPickItems
    simp [hurl]

theorem forceAuthWebLogin_singleton_frame_witness :
    (AuthParamsGatherer.getQuickPickItems (fun k => k)
        ⟨some "/w", true, some "https://u"⟩
        (AuthParamsGatherer.initOrgTypes (fun k => k))).2.project.detail =
      "auth_project_detail" ++ " (" ++ "https://u" ++ ")" := by
  have h := forceAuthWebLogin_singleton_frame (fun k => k)
    ⟨some "/w", true, some "https://u"⟩ false false
    ⟨AuthParamsGatherer.initOrgTypes (fun k => k)⟩ none none none
  exact (h.2 (AuthParamsGatherer.initOrgTypes (fun k => k))).2.2.2.2
    (by decide)

/-- C8: in `AuthParamsGatherer.gather` the sandbox URL is selected by
comparing the chosen label to the literal string `Sandbox`, not to the
localized sandbox item's label: for every selection whose label is neither
the custom label nor the project label, the resulting loginUrl is
`SANDBOX_URL` if and only if the label is exactly `Sandbox`, and
`PRODUCTION_URL` otherwise. -/
theorem gather_sandbox_literal_comparison (localize : String → String)
    (env : WorkspaceEnv) (st : OrgTypes) (lbl : String)
    (cu al : Option String) (p : AuthParams)
    (h1 : lbl ≠ st.custom.label) (h2 : lbl ≠ st.project.label)
    (h : (AuthParamsGatherer.gather localize env st (some lbl) cu al).1 =
      GatherResponse.cont p) :
    (p.loginUrl = SANDBOX_URL ↔ lbl = "Sandbox") ∧
    (lbl ≠ "Sandbox" → p.loginUrl = PRODUCTION_URL) := by
  obtain ⟨-, -, hcust, hproj⟩ := getQuickPickItems_frame localize env st
  unfold AuthParamsGatherer.gather at h
  dsimp only at h
  rw [hcust, hproj] at h
  rw [if_neg h1, if_neg h2] at h
  cases al with
  | none => exact absurd h (by simp)
  | some a =>
    by_cases hs : lbl = "Sandbox"
    · simp only [hs, if_pos] at h
      have hX : (if (SANDBOX_URL : String) = "" then PRODUCTION_URL
          else SANDBOX_URL) = SANDBOX_URL := by decide
      simp only [Option.getD_some, hX] at h
      injection h with h'
      rw [← h']
      constructor
      · simp [hs]
      · intro hc
        exact absurd hs hc
    · simp only [hs, if_neg, if_false] at h
      have hX : (if (PRODUCTION_URL : String) = "" then PRODUCTION_URL
          else PRODUCTION_URL) = PRODUCTION_URL := by decide
      simp only [Option.getD_some, hX] at h
      injection h with h'
      rw [← h']
      have hne : (PRODUCTION_URL : String) ≠ SANDBOX_URL := by decide
      constructor
      · constructor
        · intro hbad
          exact absurd hbad hne
        · intro hbad
          exact absurd hbad hs
      · intro _
        rfl

theorem gather_sandbox_literal_comparison_witness :
    ((⟨"a", SANDBOX_URL⟩ : AuthParams).loginUrl = SANDBOX_URL ↔
      ("Sandbox" : String) = "Sandbox") ∧
    (("Sandbox" : String) ≠ "Sandbox" →
      (⟨"a", SANDBOX_URL⟩ : AuthParams).loginUrl = PRODUCTION_URL) :=
  gather_sandbox_literal_comparison (fun k => k) ⟨none, false, none⟩
    (AuthParamsGatherer.initOrgTypes (fun k => k)) "Sandbox" none (some "a")
    ⟨"a", SANDBOX_URL⟩ (by decide) (by decide) (by decide)

lemma fallback_ne_empty (o : Option String) :
    (if o.getD "" = "" then PRODUCTION_URL else o.getD "") ≠ "" := by
  by_cases h : o.getD "" = ""
  · rw [if_pos h]
    decide
  · rw [if_neg h]
    exact h

lemma alias_ne_empty (a : String) :
    (if a = "" then DEFAULT_ALIAS else a) ≠ "" := by
  by_cases h : a = ""
  · rw [if_pos h]
    decide
  · rw [if_neg h]
    exact h

/-- C9: whenever `AuthParamsGatherer.gather` returns a CONTINUE response,
both AuthParams fields are non-empty strings: an empty alias input is
replaced by the default alias `vscodeOrg`, and an empty or absent loginUrl
(including an empty custom-URL input and a missing project URL) is replaced
by the production URL. -/
theorem gather_continue_nonempty (localize : String → String)
    (env : WorkspaceEnv) (st : OrgTypes) (sel cu al : Option String)
    (p : AuthParams)
    (h : (AuthParamsGatherer.gather localize env st sel cu al).1 =
      GatherResponse.cont p) :
    p.«alias» ≠ "" ∧ p.loginUrl ≠ "" ∧
    (al = some "" → p.«alias» = DEFAULT_ALIAS) ∧
    (sel = some st.custom.label → cu = some "" →
      p.loginUrl = PRODUCTION_URL) ∧
    (sel = some st.project.label → sel ≠ some st.custom.label →
      AuthParamsGatherer.getProjectUrl env = none →
      p.loginUrl = PRODUCTION_URL) := by
  obtain ⟨-, -, hcust, hproj⟩ := getQuickPickItems_frame localize env st
  unfold AuthParamsGatherer.gather at h
  dsimp only at h
  cases sel with
  | none => exact absurd h (by simp)
  | some orgType =>
    rw [hcust, hproj] at h
    dsimp only at h
    by_cases h1 : orgType = st.custom.label
    · rw [if_pos h1] at h
      cases cu with
      | none => exact absurd h (by simp)
      | some v =>
        cases al with
        | none => exact absurd h (by simp)
        | some a =>
          dsimp only at h
          injection h with h'
          rw [← h']
          refine ⟨alias_ne_empty a, fallback_ne_empty (some v), ?_, ?_, ?_⟩
          · intro ha
            injection ha with ha'
            subst ha'
            simp
          · intro _ hcu
            injection hcu with hv
            subst hv
            simp
          · intro _ hne _
            exact absurd (by rw [h1]) hne
    · rw [if_neg h1] at h
      by_cases h2 : orgType = st.project.label
      · rw [if_pos h2] at h
        cases al with
        | none => exact absurd h (by simp)
        | some a =>
          dsimp only at h
          injection h with h'
          rw [← h']
          refine ⟨alias_ne_empty a,
            fallback_ne_empty (AuthParamsGatherer.getProjectUrl env), ?_, ?_, ?_⟩
          · intro ha
            injection ha with ha'
            subst ha'
            simp
          · intro hc _
            injection hc with hc'
            exact absurd hc' h1
          · intro _ _ hpu
            simp [hpu]
      · rw [if_neg h2] at h
        cases al with
        | none => exact absurd h (by simp)
        | some a =>
          dsimp only at h
          injection h with h'
          rw [← h']
          refine ⟨alias_ne_empty a, fallback_ne_empty _, ?_, ?_, ?_⟩
          · intro ha
            injection ha with ha'
            subst ha'
            simp
          · intro hc _
            injection hc with hc'
            exact absurd hc' h1
          · intro hp _ _
            injection hp with hp'
            exact absurd hp' h2

theorem gather_continue_nonempty_witness :
    (⟨"vscodeOrg", "https://login.salesforce.com"⟩ : AuthParams).«alias» ≠ "" ∧
    (⟨"vscodeOrg", "https://login.salesforce.com"⟩ : AuthParams).loginUrl ≠ "" ∧
    ((some "" : Option String) = some "" →
      (⟨"vscodeOrg", "https://login.salesforce.com"⟩ : AuthParams).«alias» =
        DEFAULT_ALIAS) ∧
    ((some "auth_custom_label" : Option String) =
        some (AuthParamsGatherer.initOrgTypes (fun k => k)).custom.label →
      (some "" : Option String) = some "" →
      (⟨"vscodeOrg", "https://login.salesforce.com"⟩ : AuthParams).loginUrl =
        PRODUCTION_URL) ∧
    ((some "auth_custom_label" : Option String) =
        some (AuthParamsGatherer.initOrgTypes (fun k => k)).project.label →
      (some "auth_custom_label" : Option String) ≠
        some (AuthParamsGatherer.initOrgTypes (fun k => k)).custom.label →
      AuthParamsGatherer.getProjectUrl ⟨none, false, none⟩ = none →
      (⟨"vscodeOrg", "https://login.salesforce.com"⟩ : AuthParams).loginUrl =
        PRODUCTION_URL) :=
  gather_continue_nonempty (fun k => k) ⟨none, false, none⟩
    (AuthParamsGatherer.initOrgTypes (fun k => k))
    (some "auth_custom_label") (some "") (some "")
    ⟨"vscodeOrg", "https://login.salesforce.com"⟩ (by decide)
